import Mathlib

/-!
Verification of the offline caching layer of the portfolio site
(service worker `sw.js`): request classification, the three
response-resolution strategies (cache-first, network-first,
stale-while-revalidate), the install/activate lifecycle, and the
fetch-eligibility filter.

Paths and URLs are modelled as `List Char`; the cache bucket as an
association list keyed by URL (a `put` prepends, so lookup sees the
latest entry — last writer wins); the network as an explicit outcome
parameter (`NetOutcome`), which makes each strategy a pure function of
the network behaviour, the bucket and the request.
-/

namespace SW

abbrev Path := List Char

abbrev Url := List Char

/-- The three resolution strategies of `sw.js`. -/
inductive Strategy where
  | networkFirst
  | cacheFirst
  | staleWhileRevalidate
deriving DecidableEq, Repr

/-- `pathname.endsWith(s)` on char lists (case-sensitive, as JS `endsWith`). -/
def endsWithL (p s : Path) : Bool := s.isSuffixOf p

/-- Lower-casing of a path, used to model the `/i` flag on the extension
regexes (`Char.toLower` lower-cases exactly the ASCII letters, which is what
the case-insensitive regex match comes down to for these ASCII patterns). -/
def lowerPath (p : Path) : Path := p.map Char.toLower

/-- Image extensions of the regex `\.(png|jpg|jpeg|gif|webp|svg|ico)$/i`. -/
def imageExts : List Path :=
  [".png".toList, ".jpg".toList, ".jpeg".toList, ".gif".toList,
   ".webp".toList, ".svg".toList, ".ico".toList]

/-- Font extensions of the regex `\.(woff|woff2|ttf|otf|eot)$/i`. -/
def fontExts : List Path :=
  [".woff".toList, ".woff2".toList, ".ttf".toList, ".otf".toList, ".eot".toList]

/-- The anchored alternation `\.(e1|...|en)$/i` holds exactly when the
lower-cased path ends in one of the (dotted) extensions. -/
def matchesExts (exts : List Path) (p : Path) : Bool :=
  exts.any (fun e => endsWithL (lowerPath p) e)

/-- `getCachingStrategy` of `sw.js`: priority chain over the pathname. -/
def getCachingStrategy (pathname : Path) : Strategy :=
  if endsWithL pathname ".html".toList || pathname == "/".toList then
    .networkFirst
  else if endsWithL pathname ".css".toList || endsWithL pathname ".js".toList then
    .staleWhileRevalidate
  else if matchesExts imageExts pathname then
    .cacheFirst
  else if matchesExts fontExts pathname then
    .cacheFirst
  else
    .networkFirst

/-- A first-match-wins priority table: rows of (predicate, strategy), with a
default for when no row matches. -/
def firstMatch (rows : List ((Path → Bool) × Strategy)) (dflt : Strategy)
    (p : Path) : Strategy :=
  match rows with
  | [] => dflt
  | (cond, s) :: rest => if cond p then s else firstMatch rest dflt p

/-- Modelled from the spec: the classification table of §4.2, row by row,
evaluated first-match-wins with network-first as the final default. -/
def specClassificationTable : List ((Path → Bool) × Strategy) :=
  [ (fun p => endsWithL p ".html".toList || p == "/".toList, .networkFirst),
    (fun p => endsWithL p ".css".toList || endsWithL p ".js".toList,
      .staleWhileRevalidate),
    (fun p => matchesExts imageExts p, .cacheFirst),
    (fun p => matchesExts fontExts p, .cacheFirst) ]

/-- The specified classification: the table applied first-match-wins. -/
def specStrategy (p : Path) : Strategy :=
  firstMatch specClassificationTable .networkFirst p

/-- The upper-cased variants of the image and font extensions. -/
def upperMediaExts : List Path :=
  [".PNG".toList, ".JPG".toList, ".JPEG".toList, ".GIF".toList, ".WEBP".toList,
   ".SVG".toList, ".ICO".toList, ".WOFF".toList, ".WOFF2".toList, ".TTF".toList,
   ".OTF".toList, ".EOT".toList]

/-- An HTTP response as the worker observes and stores it: status and body. -/
structure Response where
  status : Nat
  body : List Char
deriving DecidableEq, Repr

/-- JS `Response.ok`: status in the inclusive range 200–299. -/
def Response.ok (r : Response) : Bool :=
  decide (200 ≤ r.status) && decide (r.status ≤ 299)

/-- `new Response('Offline', { status: 503 })`. -/
def offlineResponse : Response := { status := 503, body := "Offline".toList }

/-- A cache bucket: association list from URL to response. A `put` prepends,
and lookup is head-first, so the most recent write for a URL wins. -/
abbrev Cache := List (Url × Response)

/-- `cache.match(request)` (also `caches.match`): lookup by URL key. -/
def cacheMatch : Cache → Url → Option Response
  | [], _ => none
  | (k, r) :: rest, u => if k == u then some r else cacheMatch rest u

/-- `cache.put(request, response)`: stores, shadowing any older entry. -/
def cachePut (c : Cache) (u : Url) (r : Response) : Cache := (u, r) :: c

/-- Outcome of one `fetch(request)`: a resolved response, or a rejection
(network error). HTTP error statuses are `success` with `ok = false`. -/
inductive NetOutcome where
  | success (r : Response)
  | failure
deriving DecidableEq, Repr

/-- Observable outcome of running one strategy on one request: the value the
caller receives (`none` models JS `undefined`), the bucket afterwards, and
how many network fetches were issued while resolving. -/
structure StrategyOutcome where
  resp : Option Response
  cache : Cache
  fetches : Nat
deriving DecidableEq, Repr

/-- `cacheFirst` of `sw.js`: bucket hit is returned with no fetch; on a miss
the network response is returned, stored first when HTTP-ok; a rejected
fetch is caught and replaced by the synthesized 503 response. -/
def cacheFirst (net : NetOutcome) (c : Cache) (u : Url) : StrategyOutcome :=
  match cacheMatch c u with
  | some r => { resp := some r, cache := c, fetches := 0 }
  | none =>
    match net with
    | .success r =>
      if r.ok then { resp := some r, cache := cachePut c u r, fetches := 1 }
      else { resp := some r, cache := c, fetches := 1 }
    | .failure => { resp := some offlineResponse, cache := c, fetches := 1 }

/-- `networkFirst` of `sw.js`; `navigate` models `request.mode === 'navigate'`.
The network response is returned (stored first when HTTP-ok); a rejected
fetch falls back to the bucket, then — for navigations — to the cached
`/index.html` shell, then to the synthesized 503 response. -/
def networkFirst (net : NetOutcome) (navigate : Bool) (c : Cache) (u : Url) :
    StrategyOutcome :=
  match net with
  | .success r =>
    if r.ok then { resp := some r, cache := cachePut c u r, fetches := 1 }
    else { resp := some r, cache := c, fetches := 1 }
  | .failure =>
    match cacheMatch c u with
    | some r => { resp := some r, cache := c, fetches := 1 }
    | none =>
      if navigate then
        match cacheMatch c "/index.html".toList with
        | some shell => { resp := some shell, cache := c, fetches := 1 }
        | none => { resp := some offlineResponse, cache := c, fetches := 1 }
      else { resp := some offlineResponse, cache := c, fetches := 1 }

/-- `staleWhileRevalidate` of `sw.js`. The background fetch is always issued;
it rewrites the bucket entry exactly when the response is HTTP-ok. The
caller's value is `cachedResponse || fetchPromise`: the cached entry when
present; otherwise the awaited network response; and on a miss whose fetch
rejects, the `catch` handler's `cachedResponse`, i.e. `none` (JS
`undefined`). -/
def staleWhileRevalidate (net : NetOutcome) (c : Cache) (u : Url) :
    StrategyOutcome :=
  let cached := cacheMatch c u
  let revalidated :=
    match net with
    | .success r => if r.ok then cachePut c u r else c
    | .failure => c
  match cached with
  | some r => { resp := some r, cache := revalidated, fetches := 1 }
  | none =>
    match net with
    | .success r => { resp := some r, cache := revalidated, fetches := 1 }
    | .failure => { resp := none, cache := revalidated, fetches := 1 }

/-- `CACHE_VERSION` of `sw.js`. -/
def CACHE_VERSION : List Char := "v2".toList

/-- `CACHE_NAME` of `sw.js`: the template literal
`devsaint-portfolio-${CACHE_VERSION}`. -/
def CACHE_NAME : List Char := "devsaint-portfolio-".toList ++ CACHE_VERSION

/-- `PRECACHE_ASSETS` of `sw.js`. -/
def PRECACHE_ASSETS : List Url :=
  ["/".toList, "/index.html".toList, "/about.html".toList,
   "/skills.html".toList, "/projects.html".toList, "/contact.html".toList,
   "/styles.css".toList, "/script.js".toList, "/manifest.json".toList]

/-- The browser's cache storage: named buckets. -/
abbrev CacheStorage := List (List Char × Cache)

/-- Bucket lookup by name in the cache storage. -/
def storageLookup : CacheStorage → List Char → Option Cache
  | [], _ => none
  | (n, b) :: rest, name => if n == name then some b else storageLookup rest name

/-- `caches.open(name)`: ensures the named bucket exists, creating it empty
when absent. -/
def storageOpen (s : CacheStorage) (name : List Char) : CacheStorage :=
  match storageLookup s name with
  | some _ => s
  | none => (name, []) :: s

/-- Replace the content of the named bucket. -/
def storageUpdate : CacheStorage → List Char → Cache → CacheStorage
  | [], _, _ => []
  | (n, b) :: rest, name, nb =>
    if n == name then (n, nb) :: rest else (n, b) :: storageUpdate rest name nb

/-- The fetch phase of `cache.addAll(urls)`: every URL must fetch with an
HTTP-ok response, otherwise the whole batch rejects. -/
def fetchAssets (net : Url → Option Response) :
    List Url → Option (List (Url × Response))
  | [] => some []
  | u :: us =>
    match net u with
    | none => none
    | some r =>
      if r.ok then (fetchAssets net us).map (fun es => (u, r) :: es)
      else none

/-- `cache.addAll(urls)`: atomic — on success every fetched response is put
into the bucket; on any failure the bucket is unchanged and the call
rejects. -/
def addAll (net : Url → Option Response) (c : Cache) (assets : List Url) :
    Except Unit Cache :=
  match fetchAssets net assets with
  | none => .error ()
  | some entries => .ok (entries.foldl (fun acc e => cachePut acc e.1 e.2) c)

/-- Result of the install listener: the cache storage afterwards, whether
`skipWaiting()` was reached, and whether a rejection was caught (and logged)
by the trailing `catch`. -/
structure InstallOutcome where
  storage : CacheStorage
  skipWaitingCalled : Bool
  errorCaught : Bool
deriving DecidableEq, Repr

/-- The install listener of `sw.js`: open the version bucket, `addAll` the
precache manifest, then `skipWaiting()`; a rejection anywhere in the chain
skips the remaining `then` steps and is caught and logged by the final
`catch`, so the promise handed to `waitUntil` itself never rejects (the
function is total). -/
def install (net : Url → Option Response) (s : CacheStorage) : InstallOutcome :=
  let s1 := storageOpen s CACHE_NAME
  let bucket := (storageLookup s1 CACHE_NAME).getD []
  match addAll net bucket PRECACHE_ASSETS with
  | .error _ => { storage := s1, skipWaitingCalled := false, errorCaught := true }
  | .ok bucket2 =>
    { storage := storageUpdate s1 CACHE_NAME bucket2
      skipWaitingCalled := true
      errorCaught := false }

/-- `startsWith` on char lists (JS `String.prototype.startsWith`). -/
def startsWithL : Path → Path → Bool
  | _, [] => true
  | [], _ :: _ => false
  | c :: cs, d :: ds => c == d && startsWithL cs ds

/-- Result of the activate listener: the cache storage afterwards and
whether `clients.claim()` ran (it runs after the deletions complete). -/
structure ActivateOutcome where
  storage : CacheStorage
  claimCalled : Bool
deriving DecidableEq, Repr

/-- The activate listener of `sw.js`: delete every bucket whose name starts
with `devsaint-portfolio-` and differs from `CACHE_NAME`, then
`clients.claim()`. -/
def activate (s : CacheStorage) : ActivateOutcome :=
  { storage := s.filter (fun nb =>
      !(startsWithL nb.1 "devsaint-portfolio-".toList && nb.1 != CACHE_NAME))
    claimCalled := true }

/-- An intercepted request: origin, method and pathname of its URL. -/
structure Request where
  origin : List Char
  method : List Char
  path : Path
deriving DecidableEq, Repr

/-- The fetch listener's dispatch decision. `none` models returning without
calling `respondWith` — the request passes through untouched, with no bucket
read or write and no strategy dispatch; `some strat` models
`respondWith(handleRequest(request, strat))`. -/
def fetchHandler (selfOrigin : List Char) (req : Request) : Option Strategy :=
  if req.origin != selfOrigin then none
  else if req.method != "GET".toList then none
  else some (getCachingStrategy req.path)

end SW

namespace SW

theorem endsWithL_iff {p s : Path} : endsWithL p s = true ↔ s <:+ p := by
  simp [endsWithL]

theorem endsWithL_eq_false {p s : Path} : endsWithL p s = false ↔ ¬ s <:+ p := by
  rw [← endsWithL_iff]
  cases h : endsWithL p s <;> simp

/-- Two suffixes of the same list are comparable; if neither of `s`, `t` is a
suffix of the other, they cannot both be suffixes of `p`. -/
theorem not_suffix_of_suffix {s t p : Path} (h : s <:+ p)
    (h1 : ¬ s <:+ t) (h2 : ¬ t <:+ s) : ¬ t <:+ p := fun ht =>
  (List.suffix_or_suffix_of_suffix ht h).elim h2 fun hc => h1 hc

/-- A path ending in a terminal segment `e` that is incompatible with every
pattern of the classifier falls through to the default strategy. -/
theorem getCachingStrategy_default_of_suffix (e : Path) {p : Path} (h : e <:+ p)
    (hhtml : ¬ ".html".toList <:+ e ∧ ¬ e <:+ ".html".toList)
    (hlen : 2 ≤ e.length)
    (hcss : ¬ ".css".toList <:+ e ∧ ¬ e <:+ ".css".toList)
    (hjs : ¬ ".js".toList <:+ e ∧ ¬ e <:+ ".js".toList)
    (himg : ∀ i ∈ imageExts, ¬ i <:+ lowerPath e ∧ ¬ lowerPath e <:+ i)
    (hfont : ∀ f ∈ fontExts, ¬ f <:+ lowerPath e ∧ ¬ lowerPath e <:+ f) :
    getCachingStrategy p = .networkFirst := by
  have hl : lowerPath e <:+ lowerPath p := List.IsSuffix.map _ h
  have g1 : endsWithL p ".html".toList = false :=
    endsWithL_eq_false.mpr (not_suffix_of_suffix h hhtml.2 hhtml.1)
  have g1r : (p == "/".toList) = false := by
    rw [beq_eq_false_iff_ne]
    intro hp
    have hle := h.length_le
    rw [hp] at hle
    simp at hle
    omega
  have g2 : endsWithL p ".css".toList = false :=
    endsWithL_eq_false.mpr (not_suffix_of_suffix h hcss.2 hcss.1)
  have g3 : endsWithL p ".js".toList = false :=
    endsWithL_eq_false.mpr (not_suffix_of_suffix h hjs.2 hjs.1)
  have g4 : matchesExts imageExts p = false := by
    rw [matchesExts, List.any_eq_false]
    intro i hi
    rw [Bool.not_eq_true, endsWithL_eq_false]
    exact not_suffix_of_suffix hl (himg i hi).2 (himg i hi).1
  have g5 : matchesExts fontExts p = false := by
    rw [matchesExts, List.any_eq_false]
    intro f hf
    rw [Bool.not_eq_true, endsWithL_eq_false]
    exact not_suffix_of_suffix hl (hfont f hf).2 (hfont f hf).1
  simp only [getCachingStrategy, g1, g1r, g2, g3, g4, g5]
  rfl

/-- A path ending in a terminal segment `e` whose lower-casing is one of the
image or font extensions, and which is incompatible with the html/css/js
patterns, classifies as cache-first. -/
theorem getCachingStrategy_cacheFirst_of_suffix (e : Path) {p : Path}
    (h : e <:+ p)
    (hhtml : ¬ ".html".toList <:+ e ∧ ¬ e <:+ ".html".toList)
    (hlen : 2 ≤ e.length)
    (hcss : ¬ ".css".toList <:+ e ∧ ¬ e <:+ ".css".toList)
    (hjs : ¬ ".js".toList <:+ e ∧ ¬ e <:+ ".js".toList)
    (hmem : lowerPath e ∈ imageExts ∨ lowerPath e ∈ fontExts) :
    getCachingStrategy p = .cacheFirst := by
  have hl : lowerPath e <:+ lowerPath p := List.IsSuffix.map _ h
  have g1 : endsWithL p ".html".toList = false :=
    endsWithL_eq_false.mpr (not_suffix_of_suffix h hhtml.2 hhtml.1)
  have g1r : (p == "/".toList) = false := by
    rw [beq_eq_false_iff_ne]
    intro hp
    have hle := h.length_le
    rw [hp] at hle
    simp at hle
    omega
  have g2 : endsWithL p ".css".toList = false :=
    endsWithL_eq_false.mpr (not_suffix_of_suffix h hcss.2 hcss.1)
  have g3 : endsWithL p ".js".toList = false :=
    endsWithL_eq_false.mpr (not_suffix_of_suffix h hjs.2 hjs.1)
  rcases hmem with hm | hm
  · have g4 : matchesExts imageExts p = true := by
      rw [matchesExts, List.any_eq_true]
      exact ⟨lowerPath e, hm, endsWithL_iff.mpr hl⟩
    simp only [getCachingStrategy, g1, g1r, g2, g3, g4]
    rfl
  · have g5 : matchesExts fontExts p = true := by
      rw [matchesExts, List.any_eq_true]
      exact ⟨lowerPath e, hm, endsWithL_iff.mpr hl⟩
    cases g4 : matchesExts imageExts p
    · simp only [getCachingStrategy, g1, g1r, g2, g3, g4, g5]
      rfl
    · simp only [getCachingStrategy, g1, g1r, g2, g3, g4]
      rfl

/-- C1: for every URL path, `getCachingStrategy` returns exactly the strategy
prescribed by the spec's priority table (first match wins): `.html` or the
root path gives network-first; else `.css`/`.js` gives
stale-while-revalidate; else a case-insensitive image extension gives
cache-first; else a case-insensitive font extension gives cache-first; any
other path gives the network-first default. -/
theorem getCachingStrategy_matches_spec_table :
    ∀ p : Path, getCachingStrategy p = specStrategy p := fun _ => rfl

/-- C10: classification is case-sensitive for stylesheet and script
extensions but case-insensitive for image and font extensions: a path
ending in upper-case `.CSS` or `.JS` classifies as network-first (the
default), not stale-while-revalidate, while a path ending in an upper-case
image or font extension still classifies as cache-first. -/
theorem classification_case_sensitivity (p : Path) :
    ((endsWithL p ".CSS".toList = true ∨ endsWithL p ".JS".toList = true) →
      getCachingStrategy p = .networkFirst) ∧
    (∀ e ∈ upperMediaExts, endsWithL p e = true →
      getCachingStrategy p = .cacheFirst) := by
  constructor
  · rintro (hc | hc)
    · exact getCachingStrategy_default_of_suffix ".CSS".toList
        (endsWithL_iff.mp hc) (by decide) (by decide) (by decide) (by decide)
        (by decide) (by decide)
    · exact getCachingStrategy_default_of_suffix ".JS".toList
        (endsWithL_iff.mp hc) (by decide) (by decide) (by decide) (by decide)
        (by decide) (by decide)
  · intro e he hp
    have h := endsWithL_iff.mp hp
    fin_cases he <;>
      exact getCachingStrategy_cacheFirst_of_suffix _ h (by decide) (by decide)
        (by decide) (by decide) (by decide)

/-- Witness for C10 at concrete paths: `/STYLES.CSS` classifies as
network-first and `/LOGO.PNG` as cache-first. -/
theorem classification_case_sensitivity_witness :
    getCachingStrategy "/STYLES.CSS".toList = .networkFirst ∧
    getCachingStrategy "/LOGO.PNG".toList = .cacheFirst :=
  ⟨(classification_case_sensitivity "/STYLES.CSS".toList).1 (Or.inl (by decide)),
   (classification_case_sensitivity "/LOGO.PNG".toList).2 ".PNG".toList
     (by decide) (by decide)⟩

/-- C2: cache-first resolution. A bucket hit is returned unchanged with zero
network fetches; on a miss the network response is returned, a copy having
been stored exactly when the response is HTTP-ok; a rejected fetch is caught
and answered with the synthesized 503 `Offline` response; and in every case
the caller receives a response object, never a thrown error. -/
theorem cacheFirst_spec (net : NetOutcome) (c : Cache) (u : Url) :
    (∀ r, cacheMatch c u = some r →
      cacheFirst net c u = { resp := some r, cache := c, fetches := 0 }) ∧
    (cacheMatch c u = none → ∀ r, net = .success r →
      cacheFirst net c u =
        { resp := some r
          cache := if r.ok then cachePut c u r else c
          fetches := 1 }) ∧
    (cacheMatch c u = none → net = .failure →
      cacheFirst net c u =
        { resp := some offlineResponse, cache := c, fetches := 1 }) ∧
    (∃ r, (cacheFirst net c u).resp = some r) := by
  refine ⟨?_, ?_, ?_, ?_⟩
  · intro r hr
    simp [cacheFirst, hr]
  · intro hn r hr
    subst hr
    cases hok : r.ok <;> simp [cacheFirst, hn, hok]
  · intro hn hf
    subst hf
    simp [cacheFirst, hn]
  · rcases hm : cacheMatch c u with _ | r
    · cases net with
      | success r => cases hok : r.ok <;> exact ⟨r, by simp [cacheFirst, hm, hok]⟩
      | failure => exact ⟨offlineResponse, by simp [cacheFirst, hm]⟩
    · exact ⟨r, by simp [cacheFirst, hm]⟩

/-- Witness for C2 at concrete inputs: a hit served from the bucket with no
fetch, a miss filled from the network and stored, and a miss with a rejected
fetch answered by the 503 response. -/
theorem cacheFirst_spec_witness :
    cacheFirst .failure [("/a".toList, ⟨200, "x".toList⟩)] "/a".toList =
      { resp := some ⟨200, "x".toList⟩
        cache := [("/a".toList, ⟨200, "x".toList⟩)]
        fetches := 0 } ∧
    cacheFirst (.success ⟨200, "y".toList⟩) [] "/b".toList =
      { resp := some ⟨200, "y".toList⟩
        cache := [("/b".toList, ⟨200, "y".toList⟩)]
        fetches := 1 } ∧
    cacheFirst .failure [] "/c".toList =
      { resp := some offlineResponse, cache := [], fetches := 1 } := by
  refine ⟨(cacheFirst_spec .failure _ _).1 _ (by decide), ?_,
    (cacheFirst_spec .failure [] "/c".toList).2.2.1 (by decide) rfl⟩
  have h := (cacheFirst_spec (.success ⟨200, "y".toList⟩) [] "/b".toList).2.1
    (by decide) _ rfl
  simpa [cachePut] using h

/-- C3: network-first resolution. An HTTP-ok network response is stored and
returned; a network response with an error status is returned but not
stored; on a rejected fetch the bucket is consulted and a cached copy, when
present, is returned; with nothing cached, a navigation is answered with the
cached `/index.html` shell, and a non-navigation with the synthesized 503
`Offline` response. -/
theorem networkFirst_spec (net : NetOutcome) (nav : Bool) (c : Cache)
    (u : Url) :
    (∀ r, net = .success r → r.ok = true →
      networkFirst net nav c u =
        { resp := some r, cache := cachePut c u r, fetches := 1 }) ∧
    (∀ r, net = .success r → r.ok = false →
      networkFirst net nav c u = { resp := some r, cache := c, fetches := 1 }) ∧
    (net = .failure → ∀ r, cacheMatch c u = some r →
      networkFirst net nav c u = { resp := some r, cache := c, fetches := 1 }) ∧
    (net = .failure → cacheMatch c u = none → nav = true →
      ∀ shell, cacheMatch c "/index.html".toList = some shell →
        networkFirst net nav c u =
          { resp := some shell, cache := c, fetches := 1 }) ∧
    (net = .failure → cacheMatch c u = none → nav = false →
      networkFirst net nav c u =
        { resp := some offlineResponse, cache := c, fetches := 1 }) := by
  refine ⟨?_, ?_, ?_, ?_, ?_⟩
  · intro r hr hok
    subst hr
    simp [networkFirst, hok]
  · intro r hr hok
    subst hr
    simp [networkFirst, hok]
  · intro hf r hm
    subst hf
    simp [networkFirst, hm]
  · intro hf hm hnav shell hshell
    subst hf
    subst hnav
    simp only [networkFirst, hm, hshell]
    rfl
  · intro hf hm hnav
    subst hf
    subst hnav
    simp [networkFirst, hm]

/-- Witness for C3 at concrete inputs: an HTTP-ok response stored and
returned, a 500 response returned unstored, a rejected fetch served from the
bucket, a navigation fallback to the cached shell, and the 503 default. -/
theorem networkFirst_spec_witness :
    networkFirst (.success ⟨200, "f".toList⟩) false [] "/p".toList =
      { resp := some ⟨200, "f".toList⟩
        cache := [("/p".toList, ⟨200, "f".toList⟩)]
        fetches := 1 } ∧
    networkFirst (.success ⟨500, "e".toList⟩) false [] "/p".toList =
      { resp := some ⟨500, "e".toList⟩, cache := [], fetches := 1 } ∧
    networkFirst .failure false [("/p".toList, ⟨200, "s".toList⟩)] "/p".toList =
      { resp := some ⟨200, "s".toList⟩
        cache := [("/p".toList, ⟨200, "s".toList⟩)]
        fetches := 1 } ∧
    networkFirst .failure true [("/index.html".toList, ⟨200, "h".toList⟩)]
        "/q".toList =
      { resp := some ⟨200, "h".toList⟩
        cache := [("/index.html".toList, ⟨200, "h".toList⟩)]
        fetches := 1 } ∧
    networkFirst .failure false [] "/q".toList =
      { resp := some offlineResponse, cache := [], fetches := 1 } := by
  refine ⟨?_, ?_, ?_, ?_, ?_⟩
  · have h := (networkFirst_spec (.success ⟨200, "f".toList⟩) false []
      "/p".toList).1 _ rfl (by decide)
    simpa [cachePut] using h
  · exact (networkFirst_spec (.success ⟨500, "e".toList⟩) false []
      "/p".toList).2.1 _ rfl (by decide)
  · exact (networkFirst_spec .failure false _ "/p".toList).2.2.1 rfl _
      (by decide)
  · exact (networkFirst_spec .failure true _ "/q".toList).2.2.2.1 rfl
      (by decide) rfl _ (by decide)
  · exact (networkFirst_spec .failure false [] "/q".toList).2.2.2.2 rfl
      (by decide) rfl

/-- C4: stale-while-revalidate with a cached copy answers the caller with
the cached copy — the answer is independent of the network outcome, which
models that the caller does not await the background fetch — while the
background revalidation rewrites the bucket entry exactly when the fetch
resolves HTTP-ok; on a miss the caller awaits the fetch and receives its
response when it succeeds. -/
theorem staleWhileRevalidate_spec (net : NetOutcome) (c : Cache) (u : Url) :
    (∀ r0, cacheMatch c u = some r0 →
      (staleWhileRevalidate net c u).resp = some r0 ∧
      (∀ net2, (staleWhileRevalidate net2 c u).resp =
        (staleWhileRevalidate net c u).resp) ∧
      (∀ r, net = .success r → r.ok = true →
        (staleWhileRevalidate net c u).cache = cachePut c u r) ∧
      (∀ r, net = .success r → r.ok = false →
        (staleWhileRevalidate net c u).cache = c) ∧
      (net = .failure → (staleWhileRevalidate net c u).cache = c)) ∧
    (cacheMatch c u = none → ∀ r, net = .success r →
      (staleWhileRevalidate net c u).resp = some r) := by
  constructor
  · intro r0 h0
    refine ⟨by simp [staleWhileRevalidate, h0], ?_, ?_, ?_, ?_⟩
    · intro net2
      have h1 : (staleWhileRevalidate net c u).resp = some r0 := by
        simp [staleWhileRevalidate, h0]
      have h2 : (staleWhileRevalidate net2 c u).resp = some r0 := by
        simp [staleWhileRevalidate, h0]
      rw [h1, h2]
    · intro r hr hok
      subst hr
      simp [staleWhileRevalidate, h0, hok]
    · intro r hr hok
      subst hr
      simp [staleWhileRevalidate, h0, hok]
    · intro hf
      subst hf
      simp [staleWhileRevalidate, h0]
  · intro hm r hr
    subst hr
    cases hok : r.ok <;> simp [staleWhileRevalidate, hm, hok]

/-- Witness for C4 at concrete inputs: a cached `/styles.css` is answered
from the bucket while an HTTP-ok background fetch rewrites the entry, and a
miss is answered with the awaited network response. -/
theorem staleWhileRevalidate_spec_witness :
    (staleWhileRevalidate (.success ⟨200, "new".toList⟩)
        [("/styles.css".toList, ⟨200, "old".toList⟩)] "/styles.css".toList).resp
      = some ⟨200, "old".toList⟩ ∧
    (staleWhileRevalidate (.success ⟨200, "new".toList⟩)
        [("/styles.css".toList, ⟨200, "old".toList⟩)] "/styles.css".toList).cache
      = [("/styles.css".toList, ⟨200, "new".toList⟩),
         ("/styles.css".toList, ⟨200, "old".toList⟩)] ∧
    (staleWhileRevalidate (.success ⟨200, "n".toList⟩) [] "/styles.css".toList).resp
      = some ⟨200, "n".toList⟩ := by
  refine ⟨((staleWhileRevalidate_spec _ _ _).1 ⟨200, "old".toList⟩
    (by decide)).1, ?_,
    (staleWhileRevalidate_spec (.success ⟨200, "n".toList⟩) [] _).2
      (by decide) _ rfl⟩
  have h := ((staleWhileRevalidate_spec (.success ⟨200, "new".toList⟩)
    [("/styles.css".toList, ⟨200, "old".toList⟩)] "/styles.css".toList).1
    ⟨200, "old".toList⟩ (by decide)).2.2.1 _ rfl (by decide)
  simpa [cachePut] using h

/-- C5: the stale-while-revalidate gap: on a bucket miss whose network fetch
rejects, the caller receives the absent cached value — `none` (JS
`undefined`) — and in particular not the synthesized 503 `Offline` response
used by the other strategies; no fallback response is synthesized on this
path. -/
theorem swr_uncached_failure (c : Cache) (u : Url)
    (h : cacheMatch c u = none) :
    (staleWhileRevalidate .failure c u).resp = none ∧
    (staleWhileRevalidate .failure c u).resp ≠ some offlineResponse := by
  simp [staleWhileRevalidate, h]

/-- Witness for C5: an empty bucket and a rejected fetch leave the caller
with no response at all. -/
theorem swr_uncached_failure_witness :
    (staleWhileRevalidate .failure [] "/x".toList).resp = none ∧
    (staleWhileRevalidate .failure [] "/x".toList).resp ≠ some offlineResponse :=
  swr_uncached_failure [] "/x".toList (by decide)

/-- Any failing fetch in the batch makes the whole `addAll` fetch phase
reject. -/
theorem fetchAssets_eq_none {net : Url → Option Response} {assets : List Url}
    {u : Url} (hu : u ∈ assets) (hf : net u = none) :
    fetchAssets net assets = none := by
  induction assets with
  | nil => cases hu
  | cons a as ih =>
    rcases List.mem_cons.mp hu with h | h
    · subst h
      simp [fetchAssets, hf]
    · cases hn : net a with
      | none => simp [fetchAssets, hn]
      | some r => simp [fetchAssets, hn, ih h]

/-- C6: when any fetch of a precache-manifest URL fails during install, the
whole batch rejects, so nothing is cached at all — on a fresh storage the
version's bucket exists but holds no entry — `skipWaiting()` is never
reached (the version is left unseeded), and the rejection is caught and
logged by the final `catch`, so the handler completes without throwing. -/
theorem install_all_or_nothing (net : Url → Option Response) (s : CacheStorage)
    (hfresh : storageLookup s CACHE_NAME = none)
    (hfail : ∃ u ∈ PRECACHE_ASSETS, net u = none) :
    (install net s).errorCaught = true ∧
    (install net s).skipWaitingCalled = false ∧
    storageLookup (install net s).storage CACHE_NAME = some [] := by
  obtain ⟨u, hu, hnet⟩ := hfail
  have hfa : fetchAssets net PRECACHE_ASSETS = none := fetchAssets_eq_none hu hnet
  simp only [install, addAll, hfa, storageOpen, hfresh]
  refine ⟨trivial, trivial, ?_⟩
  simp [storageLookup]

/-- Witness for C6: with the network down entirely and an empty storage, the
install leaves the version bucket empty, skips `skipWaiting()`, and catches
the error. -/
theorem install_all_or_nothing_witness :
    (install (fun _ => none) []).errorCaught = true ∧
    (install (fun _ => none) []).skipWaitingCalled = false ∧
    storageLookup (install (fun _ => none) []).storage CACHE_NAME = some [] :=
  install_all_or_nothing (fun _ => none) [] rfl ⟨"/".toList, by decide, rfl⟩

/-- C7: activation keeps exactly the buckets that are not app-prefixed
stale versions — a bucket is deleted iff its name starts with
`devsaint-portfolio-` and differs from the current `CACHE_NAME` — and then
claims all open pages; in particular, activating v2 over a storage holding
the v1 and v2 buckets leaves exactly the v2 bucket. -/
theorem activate_spec (s : CacheStorage) :
    (∀ nb ∈ s, (nb ∈ (activate s).storage ↔
      ¬(startsWithL nb.1 "devsaint-portfolio-".toList = true ∧
        nb.1 ≠ CACHE_NAME))) ∧
    (activate s).claimCalled = true ∧
    (∀ b1 b2 : Cache,
      activate [("devsaint-portfolio-v1".toList, b1), (CACHE_NAME, b2)] =
        { storage := [(CACHE_NAME, b2)], claimCalled := true }) := by
  refine ⟨?_, rfl, ?_⟩
  · intro nb hmem
    rw [activate, List.mem_filter]
    simp only [hmem, true_and]
    cases hsw : startsWithL nb.1 "devsaint-portfolio-".toList <;>
      simp [hsw, bne_iff_ne, Decidable.not_not]
  · intro b1 b2
    rfl

/-- Witness for C7: a concrete activation of v2 over {v1, v2} deletes only
the v1 bucket, and the surviving current bucket satisfies the keep
condition. -/
theorem activate_spec_witness :
    activate [("devsaint-portfolio-v1".toList, ([] : Cache)), (CACHE_NAME, [])] =
      { storage := [(CACHE_NAME, [])], claimCalled := true } ∧
    ((CACHE_NAME, ([] : Cache)) ∈
      (activate [("devsaint-portfolio-v1".toList, ([] : Cache)),
        (CACHE_NAME, [])]).storage ↔
      ¬(startsWithL CACHE_NAME "devsaint-portfolio-".toList = true ∧
        CACHE_NAME ≠ CACHE_NAME)) :=
  ⟨(activate_spec []).2.2 [] [],
   (activate_spec [("devsaint-portfolio-v1".toList, ([] : Cache)),
     (CACHE_NAME, [])]).1 (CACHE_NAME, []) (by decide)⟩

/-- C8: the fetch listener handles a request iff it is same-origin and GET —
in which case it dispatches the classifier's strategy for the path — and
otherwise lets it pass through untouched (`none`: no `respondWith`, no
bucket access, no strategy dispatch). -/
theorem fetch_eligibility (so : List Char) (req : Request) :
    (req.origin = so → req.method = "GET".toList →
      fetchHandler so req = some (getCachingStrategy req.path)) ∧
    (req.origin ≠ so → fetchHandler so req = none) ∧
    (req.method ≠ "GET".toList → fetchHandler so req = none) := by
  refine ⟨?_, ?_, ?_⟩
  · intro h1 h2
    simp [fetchHandler, h1, h2]
  · intro h1
    simp [fetchHandler, h1]
  · intro h1
    have h1b : (req.method != "GET".toList) = true := bne_iff_ne.mpr h1
    by_cases h2 : req.origin = so
    · simp only [fetchHandler, h2, bne_self_eq_false, h1b]
      rfl
    · have h2b : (req.origin != so) = true := bne_iff_ne.mpr h2
      simp only [fetchHandler, h2b]
      rfl

/-- Witness for C8: a same-origin GET is dispatched, a cross-origin GET and
a same-origin POST pass through. -/
theorem fetch_eligibility_witness :
    fetchHandler "https://a.example".toList
      { origin := "https://a.example".toList
        method := "GET".toList
        path := "/styles.css".toList } =
      some (getCachingStrategy "/styles.css".toList) ∧
    fetchHandler "https://a.example".toList
      { origin := "https://b.example".toList
        method := "GET".toList
        path := "/styles.css".toList } = none ∧
    fetchHandler "https://a.example".toList
      { origin := "https://a.example".toList
        method := "POST".toList
        path := "/styles.css".toList } = none :=
  ⟨(fetch_eligibility _ _).1 rfl rfl,
   (fetch_eligibility _ _).2.1 (by decide),
   (fetch_eligibility _ _).2.2 (by decide)⟩

/-- C9: the put/match round trip. Every strategy stores by `cachePut`: an
HTTP-ok response stored by network-first, by cache-first on a miss, or by
stale-while-revalidate leaves the bucket as `cachePut c u r`; and a
subsequent cache-first resolution of that URL returns exactly the stored
response — byte-identical status and body — with zero network fetches,
whatever the network then does. -/
theorem put_then_cacheFirst (net2 : NetOutcome) (nav : Bool) (c : Cache)
    (u : Url) (r : Response) (hok : r.ok = true) :
    (networkFirst (.success r) nav c u).cache = cachePut c u r ∧
    (cacheMatch c u = none → (cacheFirst (.success r) c u).cache = cachePut c u r) ∧
    (staleWhileRevalidate (.success r) c u).cache = cachePut c u r ∧
    cacheFirst net2 (cachePut c u r) u =
      { resp := some r, cache := cachePut c u r, fetches := 0 } := by
  refine ⟨by simp [networkFirst, hok], fun h => by simp [cacheFirst, h, hok],
    ?_, ?_⟩
  · cases hm : cacheMatch c u <;> simp [staleWhileRevalidate, hok, hm]
  · have hhit : cacheMatch (cachePut c u r) u = some r := by
      simp [cacheMatch, cachePut]
    simp [cacheFirst, hhit]

/-- Witness for C9: a stored `/Me.jpg` response is read back byte-identical
by cache-first with no fetch, even with the network down. -/
theorem put_then_cacheFirst_witness :
    (networkFirst (.success ⟨200, "img".toList⟩) false [] "/Me.jpg".toList).cache
      = cachePut [] "/Me.jpg".toList ⟨200, "img".toList⟩ ∧
    cacheFirst .failure (cachePut [] "/Me.jpg".toList ⟨200, "img".toList⟩)
        "/Me.jpg".toList =
      { resp := some ⟨200, "img".toList⟩
        cache := cachePut [] "/Me.jpg".toList ⟨200, "img".toList⟩
        fetches := 0 } :=
  ⟨(put_then_cacheFirst .failure false [] "/Me.jpg".toList _ (by decide)).1,
   (put_then_cacheFirst .failure false [] "/Me.jpg".toList _ (by decide)).2.2.2⟩

end SW
